import Mathlib

/-!
Verification development for the Dream Nursery hub
(Cloudflare Durable Object `Nursery` in the websocket server source, plus
`DreamRoom` in the api-worker).

The JavaScript `Map` objects `this.sessions` (WebSocket -> session) and
`this.agents` (agentId -> agent) are embedded as association lists with
JS-`Map` semantics: `set` replaces an existing key in place or appends,
`delete` removes the entry, `get` looks the key up.  WebSocket handles are
embedded as natural numbers.  Sources of nondeterminism of the original
code (crypto.randomUUID, Date.now, Math.random) are passed in explicitly
through an `Env` oracle, one per processed operation.
-/

section AList

variable {κ : Type} {α : Type} [DecidableEq κ]

/-- JS `Map.get`: first value stored under the key, if any. -/
def alookup (k : κ) : List (κ × α) → Option α
  | [] => none
  | p :: rest => if p.1 = k then some p.2 else alookup k rest

/-- JS `Map.set`: replace the entry in place if the key is present, else append. -/
def ainsert (k : κ) (v : α) : List (κ × α) → List (κ × α)
  | [] => [(k, v)]
  | p :: rest => if p.1 = k then (k, v) :: rest else p :: ainsert k v rest

/-- JS `Map.delete`: drop the entry with the key, if any. -/
def aerase (k : κ) : List (κ × α) → List (κ × α)
  | [] => []
  | p :: rest => if p.1 = k then rest else p :: aerase k rest

/-- The keys of an association list are pairwise distinct (true of every
list derived from the empty map by `ainsert`/`aerase`, mirroring a JS Map). -/
def NodupKeys (l : List (κ × α)) : Prop := (l.map Prod.fst).Nodup

end AList

/-- Agent record created by `handleRegister`; `currentDreamId` is the field
set (only) by `handleDreamStart`, absent at creation. Coordinates are
rationals so that the `100 + Math.random() * 500` fallback is expressible. -/
structure Agent where
  id : String
  name : String
  icon : String
  status : String
  x : ℚ
  y : ℚ
  connectedAt : Nat
  lastDream : Option Nat
  dreamCount : Nat
  motifs : List String
  lastInsight : Option String
  currentDreamId : Option String
deriving DecidableEq

/-- The per-connection record stored in `this.sessions` (the `ws` handle is
the map key, kept outside the record). -/
structure Session where
  id : String
  agentId : Option String
deriving DecidableEq

/-- Aggregate stats computed by `getStats`. -/
structure Stats where
  total : Nat
  dreaming : Nat
  active : Nat
  totalDreams : Nat
deriving DecidableEq

/-- Inbound wire messages (the decoded `msg` by `type`); `unknown` stands
for any unrecognized `type` tag, which the switch in `handleMessage`
ignores. Optional fields are `Option`s (`none` = absent). -/
inductive Msg where
  | register (name icon agentId : Option String)
  | status (status : Option String)
  | dreamStart (dreamId : Option String)
  | dreamEnd (motifs : Option (List String)) (wakeInsights : Option (List String))
  | insight (insight : Option String) (isBreakthrough : Option Bool)
  | ping
  | unknown
deriving DecidableEq

/-- Outbound events constructed by the handlers. -/
inductive OutEvent where
  | welcome (agents : List Agent) (stats : Stats)
  | registered (agent : Agent)
  | agentJoined (agent : Agent)
  | agentUpdated (agent : Agent)
  | dreamStarted (agentId agentName dreamId : String)
  | dreamEnded (agentId agentName : String)
      (motifs : Option (List String)) (wakeInsights : Option (List String))
  | insightShared (agentId agentName : String)
      (insight : Option String) (isBreakthrough : Bool)
  | agentLeft (agentId agentName : String)
  | pong (timestamp : Nat)
deriving DecidableEq

/-- An emitted output: either a direct `this.send(ws, ...)` to one handle,
or a `this.broadcast(..., exclude)` fan-out request. -/
inductive Out where
  | direct (ws : Nat) (ev : OutEvent)
  | broadcastOut (ev : OutEvent) (exclude : Option Nat)
deriving DecidableEq

/-- Oracle for one handled operation: the value crypto.randomUUID would
return, Date.now, and the two Math.random draws of the position fallback. -/
structure Env where
  freshId : String
  now : Nat
  rnd1 : ℚ
  rnd2 : ℚ

/-- The state owned by one `Nursery` Durable Object. -/
structure Nursery where
  sessions : List (Nat × Session)
  agents : List (String × Agent)
deriving DecidableEq

def nursery0 : Nursery := ⟨[], []⟩

/-- JS `v || d` on an optional string field: absent or empty is falsy. -/
def strOr (v : Option String) (d : String) : String :=
  match v with
  | none => d
  | some s => if s = "" then d else s

/-- JS `msg.wakeInsights?.[0] || agent.lastInsight` in `handleDreamEnd`:
the first element when the array is supplied, non-empty and its first
element is a non-empty (truthy) string; the previous value otherwise. -/
def insightOr (wakeInsights : Option (List String)) (prev : Option String) :
    Option String :=
  match wakeInsights with
  | none => prev
  | some l =>
    match l.head? with
    | none => prev
    | some s => if s = "" then prev else some s

/-- The fixed preset layout coordinates of `handleRegister`, in source order. -/
def positions : List (ℚ × ℚ) :=
  [(100, 150), (350, 150), (600, 150),
   (100, 350), (350, 350), (600, 350),
   (225, 250), (475, 250)]

/-- Membership of an exact coordinate pair in the `usedPositions` set
built from the current agents (the source keys the set by the string
x,y whose components are numerals, so string equality coincides with
pair equality). -/
def occupied (agents : List (String × Agent)) (p : ℚ × ℚ) : Bool :=
  agents.any fun q => decide (q.2.x = p.1 ∧ q.2.y = p.2)

/-- Position choice of `handleRegister`: first preset whose pair is not
used; else the random in-bounds fallback from the two Math.random draws. -/
def assignPos (agents : List (String × Agent)) (r1 r2 : ℚ) : ℚ × ℚ :=
  match positions.find? (fun p => ! occupied agents p) with
  | some p => p
  | none => (100 + r1 * 500, 100 + r2 * 400)

/-- `getStats`. -/
def getStats (st : Nursery) : Stats :=
  let agents := st.agents.map Prod.snd
  { total := agents.length
    dreaming := (agents.filter fun a => a.status == "dreaming").length
    active := (agents.filter fun a => a.status == "active").length
    totalDreams := (agents.map fun a => a.dreamCount).sum }

/-- `handleRegister`: always creates the agent record, stores it under the
effective id, and (re)binds the session, with no already-bound check. -/
def handleRegister (e : Env) (ws : Nat) (session : Session)
    (name icon agentId : Option String) (st : Nursery) : Nursery × List Out :=
  let id := strOr agentId e.freshId
  let pos := assignPos st.agents e.rnd1 e.rnd2
  let agent : Agent :=
    { id := id, name := strOr name "Unknown", icon := strOr icon "🥚",
      status := "active", x := pos.1, y := pos.2, connectedAt := e.now,
      lastDream := none, dreamCount := 0, motifs := [], lastInsight := none,
      currentDreamId := none }
  ({ sessions := ainsert ws { session with agentId := some id } st.sessions,
     agents := ainsert id agent st.agents },
   [.direct ws (.registered agent), .broadcastOut (.agentJoined agent) none])

/-- `handleStatusUpdate`: `agent.status = msg.status || agent.status`. -/
def handleStatusUpdate (session : Session) (status : Option String)
    (st : Nursery) : Nursery × List Out :=
  match session.agentId with
  | none => (st, [])
  | some aid =>
    match alookup aid st.agents with
    | none => (st, [])
    | some agent =>
      let agent' := { agent with status := strOr status agent.status }
      ({ st with agents := ainsert aid agent' st.agents },
       [.broadcastOut (.agentUpdated agent') none])

/-- `handleDreamStart`. -/
def handleDreamStart (e : Env) (session : Session) (dreamId : Option String)
    (st : Nursery) : Nursery × List Out :=
  match session.agentId with
  | none => (st, [])
  | some aid =>
    match alookup aid st.agents with
    | none => (st, [])
    | some agent =>
      let did := strOr dreamId e.freshId
      let agent' := { agent with status := "dreaming", currentDreamId := some did }
      ({ st with agents := ainsert aid agent' st.agents },
       [.broadcastOut (.dreamStarted agent.id agent.name did) none])

/-- `handleDreamEnd`: note that `currentDreamId` is left untouched and the
broadcast echoes the message fields, not the stored ones. -/
def handleDreamEnd (e : Env) (session : Session)
    (motifs : Option (List String)) (wakeInsights : Option (List String))
    (st : Nursery) : Nursery × List Out :=
  match session.agentId with
  | none => (st, [])
  | some aid =>
    match alookup aid st.agents with
    | none => (st, [])
    | some agent =>
      let agent' := { agent with
        status := "active",
        lastDream := some e.now,
        dreamCount := agent.dreamCount + 1,
        motifs := match motifs with | none => agent.motifs | some m => m,
        lastInsight := insightOr wakeInsights agent.lastInsight }
      ({ st with agents := ainsert aid agent' st.agents },
       [.broadcastOut (.dreamEnded agent.id agent.name motifs wakeInsights) none])

/-- `handleInsight`: broadcast only, no agent mutation. -/
def handleInsight (session : Session) (insight : Option String)
    (isBreakthrough : Option Bool) (st : Nursery) : Nursery × List Out :=
  match session.agentId with
  | none => (st, [])
  | some aid =>
    match alookup aid st.agents with
    | none => (st, [])
    | some agent =>
      (st, [.broadcastOut (.insightShared agent.id agent.name insight
              (match isBreakthrough with | none => false | some b => b)) none])

/-- `handleDisconnect`: broadcast `agent_left` and delete the agent when the
session is bound and the record exists, then drop the session. -/
def handleDisconnect (ws : Nat) (session : Session) (st : Nursery) :
    Nursery × List Out :=
  match session.agentId with
  | none => ({ st with sessions := aerase ws st.sessions }, [])
  | some aid =>
    match alookup aid st.agents with
    | none => ({ st with sessions := aerase ws st.sessions }, [])
    | some agent =>
      ({ sessions := aerase ws st.sessions, agents := aerase aid st.agents },
       [.broadcastOut (.agentLeft agent.id agent.name) none])

/-- `handleMessage`: the dispatch switch (unrecognized tags fall through). -/
def handleMessage (e : Env) (ws : Nat) (session : Session) (m : Msg)
    (st : Nursery) : Nursery × List Out :=
  match m with
  | .register name icon agentId => handleRegister e ws session name icon agentId st
  | .status status => handleStatusUpdate session status st
  | .dreamStart dreamId => handleDreamStart e session dreamId st
  | .dreamEnd motifs wakeInsights => handleDreamEnd e session motifs wakeInsights st
  | .insight insight isBreakthrough => handleInsight session insight isBreakthrough st
  | .ping => (st, [.direct ws (.pong e.now)])
  | .unknown => (st, [])

/-- One operation arriving at the hub: `handleSession` accepting a fresh
connection, an inbound decoded frame, or the close event. -/
inductive Op where
  | accept (ws : Nat)
  | msg (ws : Nat) (m : Msg)
  | disconnect (ws : Nat)

/-- One serialized step of the room actor.  `accept` stores a fresh
unbound session and sends the welcome snapshot; messages and disconnects
act through the session stored for the handle (a handle the registry does
not know is a no-op). -/
def step (e : Env) (op : Op) (st : Nursery) : Nursery × List Out :=
  match op with
  | .accept ws =>
      let session : Session := { id := e.freshId, agentId := none }
      ({ st with sessions := ainsert ws session st.sessions },
       [.direct ws (.welcome (st.agents.map Prod.snd) (getStats st))])
  | .msg ws m =>
      match alookup ws st.sessions with
      | none => (st, [])
      | some session => handleMessage e ws session m st
  | .disconnect ws =>
      match alookup ws st.sessions with
      | none => (st, [])
      | some session => handleDisconnect ws session st

/-- Final state after a sequence of serialized operations. -/
def runTrace : List (Env × Op) → Nursery → Nursery
  | [], st => st
  | (e, op) :: tr, st => runTrace tr (step e op st).1

/-- State and accumulated outputs after a sequence of inbound frames from
one fixed connection handle. -/
def runMsgs : List (Env × Msg) → Nat → Nursery → Nursery × List Out
  | [], _, st => (st, [])
  | (e, m) :: rest, ws, st =>
    let r1 := step e (.msg ws m) st
    let r2 := runMsgs rest ws r1.1
    (r2.1, r1.2 ++ r2.2)

/-- `Nursery.broadcast`: attempt the serialized send to every stored
session other than `exclude`; a throwing send is swallowed by the empty
catch block, so the registry is returned unchanged.  `sendOk` tells which
handles' sends succeed; the first component lists successful deliveries in
iteration order. -/
def broadcast (sendOk : Nat → Bool) (exclude : Option Nat) :
    List (Nat × Session) → List Nat × List (Nat × Session)
  | [] => ([], [])
  | (ws, s) :: rest =>
    let r := broadcast sendOk exclude rest
    if some ws ≠ exclude then
      if sendOk ws then (ws :: r.1, (ws, s) :: r.2) else (r.1, (ws, s) :: r.2)
    else (r.1, (ws, s) :: r.2)

/-- `DreamRoom.broadcast` (api-worker): same fan-out loop, but the catch
block runs `this.sessions.delete(ws)`, removing the failing session while
iteration continues over the rest. -/
def DreamRoom.broadcast (sendOk : Nat → Bool) :
    List (Nat × Session) → List Nat × List (Nat × Session)
  | [] => ([], [])
  | (ws, s) :: rest =>
    let r := DreamRoom.broadcast sendOk rest
    if sendOk ws then (ws :: r.1, (ws, s) :: r.2) else (r.1, r.2)

/-- Orphan-freeness: every agent record in the directory has a live session
currently bound to it. -/
def OrphanFree (st : Nursery) : Prop :=
  ∀ p ∈ st.agents, ∃ q ∈ st.sessions, q.2.agentId = some p.1

/-- No dangling bindings: every bound session points at an existing agent
record. -/
def NoDangling (st : Nursery) : Prop :=
  ∀ q ∈ st.sessions, ∀ aid, q.2.agentId = some aid → ∃ p ∈ st.agents, p.1 = aid

/-- At most one live session is bound to any given agent id. -/
def UniqueBound (st : Nursery) : Prop :=
  ∀ q ∈ st.sessions, ∀ r ∈ st.sessions, ∀ aid,
    q.2.agentId = some aid → r.2.agentId = some aid → q.1 = r.1

/-- Both registries have JS-Map-like distinct keys. -/
def NodupState (st : Nursery) : Prop :=
  NodupKeys st.sessions ∧ NodupKeys st.agents

/-- Transport well-formedness of one operation: an accepted connection
handle is fresh (a new WebSocket object is a new Map key). -/
def wfStepB (st : Nursery) (op : Op) : Bool :=
  match op with
  | .accept ws => (alookup ws st.sessions).isNone
  | _ => true

/-- The operation is not a register that would rebind an already-bound
session to a different effective id. -/
def noRebindB (st : Nursery) (e : Env) (op : Op) : Bool :=
  match op with
  | .msg ws (.register _ _ agentId) =>
    match alookup ws st.sessions with
    | none => true
    | some s => s.agentId == none || s.agentId == some (strOr agentId e.freshId)
  | _ => true

/-- The operation is not a register whose effective id is already bound to
a different live session. -/
def distinctRegB (st : Nursery) (e : Env) (op : Op) : Bool :=
  match op with
  | .msg ws (.register _ _ agentId) =>
    st.sessions.all fun q => q.1 == ws || ! (q.2.agentId == some (strOr agentId e.freshId))
  | _ => true

/-- Trace condition for the orphan-freeness invariant: fresh accepts and
no rebinding registers, checked against the state each step runs in. -/
def SafeTraceC2 : Nursery → List (Env × Op) → Bool
  | _, [] => true
  | st, (e, op) :: tr =>
    wfStepB st op && noRebindB st e op && SafeTraceC2 (step e op st).1 tr

/-- Trace condition for the no-dangling invariant: no register binds an id
already bound to a different live session. -/
def SafeTraceC3 : Nursery → List (Env × Op) → Bool
  | _, [] => true
  | st, (e, op) :: tr =>
    distinctRegB st e op && SafeTraceC3 (step e op st).1 tr

/-- Oracle with a given fresh id and all numeric draws zero, for concrete
traces. -/
def mkEnv (u : String) : Env :=
  { freshId := u, now := 0, rnd1 := 0, rnd2 := 0 }

/-- Tag test used to state properties about sessions that never register. -/
def Msg.isRegister : Msg → Bool
  | .register _ _ _ => true
  | _ => false

instance (st : Nursery) : Decidable (OrphanFree st) :=
  inferInstanceAs (Decidable (∀ p ∈ st.agents, ∃ q ∈ st.sessions, q.2.agentId = some p.1))

def c1Trace : List (Env × Op) :=
  [(mkEnv "s1", .accept 1), (mkEnv "u1", .msg 1 (.register none none (some "a")))]

def c1State : Nursery := runTrace c1Trace nursery0

def c1State2 : Nursery :=
  (step (mkEnv "u2") (.msg 1 (.register none none (some "b"))) c1State).1

def c2CexTrace : List (Env × Op) :=
  [(mkEnv "s1", .accept 1),
   (mkEnv "u1", .msg 1 (.register none none (some "a"))),
   (mkEnv "u2", .msg 1 (.register none none (some "b")))]

def c2WTrace : List (Env × Op) :=
  [(mkEnv "s1", .accept 1), (mkEnv "s2", .accept 2),
   (mkEnv "u1", .msg 1 (.register (some "Atlas") (some "🤖") (some "a"))),
   (mkEnv "u2", .msg 2 (.register none none (some "b"))),
   (mkEnv "d1", .msg 1 (.dreamStart none)),
   (mkEnv "e1", .msg 1 (.dreamEnd (some ["identity"]) (some ["x"]))),
   (mkEnv "x1", .disconnect 2)]

def c3CexTrace : List (Env × Op) :=
  [(mkEnv "s1", .accept 1), (mkEnv "s2", .accept 2),
   (mkEnv "u1", .msg 1 (.register none none (some "a"))),
   (mkEnv "u2", .msg 2 (.register none none (some "a"))),
   (mkEnv "x1", .disconnect 1)]

def c3WTrace : List (Env × Op) :=
  [(mkEnv "s1", .accept 1), (mkEnv "s2", .accept 2),
   (mkEnv "u1", .msg 1 (.register none none (some "a"))),
   (mkEnv "u2", .msg 2 (.register none none (some "b"))),
   (mkEnv "d1", .msg 2 (.dreamStart (some "dx"))),
   (mkEnv "x1", .disconnect 1)]

def c4Trace : List (Env × Op) :=
  [(mkEnv "s1", .accept 1),
   (mkEnv "u1", .msg 1 (.register none none (some "a"))),
   (mkEnv "d1", .msg 1 (.dreamStart (some "dream1"))),
   (mkEnv "e1", .msg 1 (.dreamEnd none none))]

def c4State : Nursery := runTrace c4Trace nursery0

def c4WAgent : Agent :=
  { id := "a", name := "n", icon := "i", status := "dreaming", x := 0, y := 0,
    connectedAt := 0, lastDream := none, dreamCount := 2, motifs := [],
    lastInsight := none, currentDreamId := some "d" }

def c4WState : Nursery := ⟨[(1, ⟨"s", some "a"⟩)], [("a", c4WAgent)]⟩

def c5Agent : Agent :=
  { id := "a", name := "n", icon := "i", status := "dreaming", x := 0, y := 0,
    connectedAt := 0, lastDream := none, dreamCount := 3, motifs := ["m"],
    lastInsight := some "old", currentDreamId := some "d" }

def c5State : Nursery := ⟨[(1, ⟨"s", some "a"⟩)], [("a", c5Agent)]⟩

def c6Agent : Agent :=
  { id := "a", name := "n", icon := "i", status := "active", x := 0, y := 0,
    connectedAt := 0, lastDream := none, dreamCount := 0, motifs := [],
    lastInsight := none, currentDreamId := none }

def c6State : Nursery := ⟨[(1, ⟨"s", some "a"⟩)], [("a", c6Agent)]⟩

def c7Agent (x y : ℚ) : Agent :=
  { id := "z", name := "n", icon := "i", status := "active", x := x, y := y,
    connectedAt := 0, lastDream := none, dreamCount := 0, motifs := [],
    lastInsight := none, currentDreamId := none }

def c7AllAgents : List (String × Agent) :=
  positions.map fun p => ("z", c7Agent p.1 p.2)

def c8State : Nursery := ⟨[(1, ⟨"s", none⟩)], [("b", c6Agent)]⟩

def c8Msgs : List (Env × Msg) :=
  [(mkEnv "p1", .ping), (mkEnv "p2", .status (some "dreaming")),
   (mkEnv "p3", .dreamStart none), (mkEnv "p4", .dreamEnd none (some ["x"])),
   (mkEnv "p5", .insight (some "y") (some true)), (mkEnv "p6", .unknown),
   (mkEnv "p7", .ping)]

def c9Sessions : List (Nat × Session) := [(1, ⟨"sa", none⟩), (2, ⟨"sb", none⟩)]

def c10Agent : Agent :=
  { id := "a", name := "Atlas", icon := "i", status := "dreaming", x := 0, y := 0,
    connectedAt := 0, lastDream := none, dreamCount := 1, motifs := ["old-motif"],
    lastInsight := some "old-insight", currentDreamId := some "d" }

def c10State : Nursery := ⟨[(1, ⟨"s", some "a"⟩)], [("a", c10Agent)]⟩

section AListLemmas

variable {κ : Type} {α : Type} [DecidableEq κ]

theorem mem_ainsert_elim {k : κ} {v : α} {l : List (κ × α)} {q : κ × α}
    (h : q ∈ ainsert k v l) : q = (k, v) ∨ q ∈ l := by
  induction l with
  | nil => simpa [ainsert] using h
  | cons p rest ih =>
    by_cases hp : p.1 = k
    · simp only [ainsert, if_pos hp, List.mem_cons] at h
      rcases h with h | h
      · exact Or.inl h
      · exact Or.inr (List.mem_cons_of_mem _ h)
    · simp only [ainsert, if_neg hp, List.mem_cons] at h
      rcases h with h | h
      · exact Or.inr (by simp [h])
      · rcases ih h with h | h
        · exact Or.inl h
        · exact Or.inr (List.mem_cons_of_mem _ h)

theorem self_mem_ainsert (k : κ) (v : α) (l : List (κ × α)) :
    (k, v) ∈ ainsert k v l := by
  induction l with
  | nil => simp [ainsert]
  | cons p rest ih =>
    by_cases hp : p.1 = k <;> simp [ainsert, hp, ih]

theorem mem_ainsert_of_ne {l : List (κ × α)} {q : κ × α} (h : q ∈ l)
    (k : κ) (v : α) (hne : q.1 ≠ k) : q ∈ ainsert k v l := by
  induction l with
  | nil => cases h
  | cons p rest ih =>
    by_cases hp : p.1 = k
    · simp only [ainsert, if_pos hp, List.mem_cons]
      rcases List.mem_cons.mp h with h | h
      · exact absurd (h ▸ hp) hne
      · exact Or.inr h
    · simp only [ainsert, if_neg hp, List.mem_cons]
      rcases List.mem_cons.mp h with h | h
      · exact Or.inl h
      · exact Or.inr (ih h)

theorem nodupKeys_ainsert {l : List (κ × α)} (h : NodupKeys l) (k : κ) (v : α) :
    NodupKeys (ainsert k v l) := by
  induction l with
  | nil => simp [NodupKeys, ainsert]
  | cons p rest ih =>
    have h1 : p.1 ∉ rest.map Prod.fst := by
      have := h
      simp only [NodupKeys, List.map_cons, List.nodup_cons] at this
      exact this.1
    have h2 : NodupKeys rest := by
      have := h
      simp only [NodupKeys, List.map_cons, List.nodup_cons] at this
      exact this.2
    by_cases hp : p.1 = k
    · simp only [NodupKeys, ainsert, if_pos hp, List.map_cons, List.nodup_cons]
      exact ⟨hp ▸ h1, h2⟩
    · simp only [NodupKeys, ainsert, if_neg hp, List.map_cons, List.nodup_cons]
      refine ⟨?_, ih h2⟩
      intro hmem
      rcases List.mem_map.mp hmem with ⟨q, hq, hq1⟩
      rcases mem_ainsert_elim hq with rfl | hq'
      · exact hp hq1.symm
      · exact h1 (hq1 ▸ List.mem_map_of_mem Prod.fst hq')

theorem mem_of_mem_aerase {k : κ} {l : List (κ × α)} {q : κ × α}
    (h : q ∈ aerase k l) : q ∈ l := by
  induction l with
  | nil => simp [aerase] at h
  | cons p rest ih =>
    by_cases hp : p.1 = k
    · simp only [aerase, if_pos hp] at h
      exact List.mem_cons_of_mem _ h
    · simp only [aerase, if_neg hp, List.mem_cons] at h
      rcases h with h | h
      · exact h ▸ List.mem_cons_self _ _
      · exact List.mem_cons_of_mem _ (ih h)

theorem mem_aerase_of_ne {l : List (κ × α)} {q : κ × α} (h : q ∈ l)
    (k : κ) (hne : q.1 ≠ k) : q ∈ aerase k l := by
  induction l with
  | nil => cases h
  | cons p rest ih =>
    by_cases hp : p.1 = k
    · simp only [aerase, if_pos hp]
      rcases List.mem_cons.mp h with h | h
      · exact absurd (h ▸ hp) hne
      · exact h
    · simp only [aerase, if_neg hp, List.mem_cons]
      rcases List.mem_cons.mp h with h | h
      · exact Or.inl h
      · exact Or.inr (ih h)

theorem nodupKeys_aerase {l : List (κ × α)} (h : NodupKeys l) (k : κ) :
    NodupKeys (aerase k l) := by
  induction l with
  | nil => simpa [aerase] using h
  | cons p rest ih =>
    have h1 : p.1 ∉ rest.map Prod.fst := by
      have := h
      simp only [NodupKeys, List.map_cons, List.nodup_cons] at this
      exact this.1
    have h2 : NodupKeys rest := by
      have := h
      simp only [NodupKeys, List.map_cons, List.nodup_cons] at this
      exact this.2
    by_cases hp : p.1 = k
    · simpa [aerase, hp] using h2
    · simp only [NodupKeys, aerase, if_neg hp, List.map_cons, List.nodup_cons]
      refine ⟨?_, ih h2⟩
      intro hmem
      rcases List.mem_map.mp hmem with ⟨q, hq, hq1⟩
      exact h1 (hq1 ▸ List.mem_map_of_mem Prod.fst (mem_of_mem_aerase hq))

theorem key_ne_of_mem_aerase {l : List (κ × α)} (h : NodupKeys l)
    {q : κ × α} {k : κ} (hq : q ∈ aerase k l) : q.1 ≠ k := by
  induction l with
  | nil => simp [aerase] at hq
  | cons p rest ih =>
    have h1 : p.1 ∉ rest.map Prod.fst := by
      have := h
      simp only [NodupKeys, List.map_cons, List.nodup_cons] at this
      exact this.1
    have h2 : NodupKeys rest := by
      have := h
      simp only [NodupKeys, List.map_cons, List.nodup_cons] at this
      exact this.2
    by_cases hp : p.1 = k
    · simp only [aerase, if_pos hp] at hq
      intro hqk
      exact h1 ((hqk.trans hp.symm) ▸ List.mem_map_of_mem Prod.fst hq)
    · simp only [aerase, if_neg hp, List.mem_cons] at hq
      rcases hq with hq | hq
      · exact hq ▸ hp
      · exact ih h2 hq

theorem alookup_eq_some_of_mem {l : List (κ × α)} (h : NodupKeys l)
    {q : κ × α} (hq : q ∈ l) : alookup q.1 l = some q.2 := by
  induction l with
  | nil => cases hq
  | cons p rest ih =>
    have h1 : p.1 ∉ rest.map Prod.fst := by
      have := h
      simp only [NodupKeys, List.map_cons, List.nodup_cons] at this
      exact this.1
    have h2 : NodupKeys rest := by
      have := h
      simp only [NodupKeys, List.map_cons, List.nodup_cons] at this
      exact this.2
    rcases List.mem_cons.mp hq with hq | hq
    · subst hq
      simp [alookup]
    · have hne : p.1 ≠ q.1 := by
        intro he
        exact h1 (he ▸ List.mem_map_of_mem Prod.fst hq)
      simp only [alookup, if_neg hne]
      exact ih h2 hq

theorem mem_of_alookup {l : List (κ × α)} {k : κ} {v : α}
    (h : alookup k l = some v) : (k, v) ∈ l := by
  induction l with
  | nil => simp [alookup] at h
  | cons p rest ih =>
    by_cases hp : p.1 = k
    · simp only [alookup, if_pos hp, Option.some.injEq] at h
      exact List.mem_cons.mpr (Or.inl (by rw [← hp, ← h]))
    · simp only [alookup, if_neg hp] at h
      exact List.mem_cons_of_mem _ (ih h)

theorem key_ne_of_alookup_none {l : List (κ × α)} {k : κ}
    (h : alookup k l = none) {q : κ × α} (hq : q ∈ l) : q.1 ≠ k := by
  induction l with
  | nil => cases hq
  | cons p rest ih =>
    by_cases hp : p.1 = k
    · simp [alookup, hp] at h
    · simp only [alookup, if_neg hp] at h
      rcases List.mem_cons.mp hq with hq | hq
      · exact hq ▸ hp
      · exact ih h hq

theorem alookup_ainsert_self (k : κ) (v : α) (l : List (κ × α)) :
    alookup k (ainsert k v l) = some v := by
  induction l with
  | nil => simp [ainsert, alookup]
  | cons p rest ih =>
    by_cases hp : p.1 = k
    · simp [ainsert, hp, alookup]
    · simp [ainsert, hp, alookup, ih]

theorem alookup_ainsert_ne {k' k : κ} (hne : k' ≠ k) (v : α) (l : List (κ × α)) :
    alookup k' (ainsert k v l) = alookup k' l := by
  have hne' : ¬ (k = k') := fun h => hne h.symm
  induction l with
  | nil => simp [ainsert, alookup, hne']
  | cons p rest ih =>
    by_cases hp : p.1 = k
    · simp [ainsert, hp, alookup, hne']
    · by_cases hq : p.1 = k'
      · simp [ainsert, hp, alookup, hq, hne]
      · simp [ainsert, hp, alookup, hq, ih]

theorem eq_of_mem_keys {l : List (κ × α)} (h : NodupKeys l)
    {q r : κ × α} (hq : q ∈ l) (hr : r ∈ l) (hk : q.1 = r.1) : q = r := by
  have h1 := alookup_eq_some_of_mem h hq
  have h2 := alookup_eq_some_of_mem h hr
  have h3 : some q.2 = some r.2 := by rw [← h1, hk, h2]
  have h4 : q.2 = r.2 := Option.some_injective _ h3
  cases q; cases r
  simp only [Prod.mk.injEq]
  exact ⟨hk, h4⟩

end AListLemmas

/-- Claim C1 is false on the code: after session 1 is bound to agent "a", a
further register with agentId "b" is not rejected — the binding is silently
overwritten to "b" and the agent directory changes (it now also holds "b"). -/
theorem c1_counterexample :
    alookup 1 c1State.sessions = some ⟨"s1", some "a"⟩ ∧
    alookup 1 c1State2.sessions = some ⟨"s1", some "b"⟩ ∧
    c1State2.agents ≠ c1State.agents ∧
    (alookup "b" c1State2.agents).isSome = true := by decide

/-- Claim C1 amended: a further register on an already-bound session is
processed like a first one — the session is rebound to the new effective id,
that agent record is created (or overwritten), and the previously bound
record, when its id differs, stays in the directory untouched. -/
theorem c1_register_rebinds (e : Env) (ws : Nat) (session : Session)
    (oldId : String) (name icon agentId : Option String) (st : Nursery)
    (hbound : session.agentId = some oldId) :
    alookup ws ((handleRegister e ws session name icon agentId st).1).sessions
      = some { session with agentId := some (strOr agentId e.freshId) } ∧
    (alookup (strOr agentId e.freshId)
      ((handleRegister e ws session name icon agentId st).1).agents).isSome = true ∧
    (oldId ≠ strOr agentId e.freshId →
      alookup oldId ((handleRegister e ws session name icon agentId st).1).agents
        = alookup oldId st.agents) := by
  refine ⟨?_, ?_, ?_⟩
  · exact alookup_ainsert_self ws _ st.sessions
  · simp [handleRegister, alookup_ainsert_self]
  · intro hne
    exact alookup_ainsert_ne hne _ st.agents

/-- Witness for the amended C1 theorem at a concrete bound session. -/
theorem c1_register_rebinds_witness :
    (Session.mk "s1" (some "a")).agentId = some "a" ∧
    (alookup 1 ((handleRegister (mkEnv "u2") 1 ⟨"s1", some "a"⟩ none none
        (some "b") c1State).1).sessions
      = some { Session.mk "s1" (some "a") with
                 agentId := some (strOr (some "b") (mkEnv "u2").freshId) } ∧
     (alookup (strOr (some "b") (mkEnv "u2").freshId)
       ((handleRegister (mkEnv "u2") 1 ⟨"s1", some "a"⟩ none none
          (some "b") c1State).1).agents).isSome = true ∧
     ("a" ≠ strOr (some "b") (mkEnv "u2").freshId →
       alookup "a" ((handleRegister (mkEnv "u2") 1 ⟨"s1", some "a"⟩ none none
          (some "b") c1State).1).agents = alookup "a" c1State.agents)) :=
  ⟨rfl, c1_register_rebinds (mkEnv "u2") 1 ⟨"s1", some "a"⟩ "a" none none
          (some "b") c1State rfl⟩

/-- Claim C4 is false on the code: after register → dream_start → dream_end
the agent is back in state active, yet currentDreamId is still present
(dream_end never clears it), contradicting the present-iff-Dreaming claim. -/
theorem c4_counterexample :
    (alookup "a" c4State.agents).map Agent.status = some "active" ∧
    (alookup "a" c4State.agents).map Agent.currentDreamId = some (some "dream1") := by
  decide

/-- Claim C4 amended: currentDreamId is absent on the record register
creates and is set by dream_start, but no handler ever clears it —
dream_end returns the state to active while leaving currentDreamId
untouched, and status updates leave it untouched as well. -/
theorem c4_currentDreamId_lifecycle (e : Env) (ws : Nat) (session : Session)
    (aid : String) (st : Nursery) (agent : Agent)
    (hb : session.agentId = some aid) (ha : alookup aid st.agents = some agent) :
    (∀ name icon agentId,
      (alookup (strOr agentId e.freshId)
        ((handleRegister e ws session name icon agentId st).1).agents).map
          Agent.currentDreamId = some none) ∧
    (∀ dreamId,
      (alookup aid ((handleDreamStart e session dreamId st).1).agents).map
        Agent.currentDreamId = some (some (strOr dreamId e.freshId))) ∧
    (∀ motifs wakes,
      (alookup aid ((handleDreamEnd e session motifs wakes st).1).agents).map
        Agent.currentDreamId = some agent.currentDreamId ∧
      (alookup aid ((handleDreamEnd e session motifs wakes st).1).agents).map
        Agent.status = some "active") ∧
    (∀ v,
      (alookup aid ((handleStatusUpdate session v st).1).agents).map
        Agent.currentDreamId = some agent.currentDreamId) := by
  refine ⟨?_, ?_, ?_, ?_⟩
  · intro name icon agentId
    simp [handleRegister, alookup_ainsert_self]
  · intro dreamId
    simp [handleDreamStart, hb, ha, alookup_ainsert_self]
  · intro motifs wakes
    constructor <;> simp [handleDreamEnd, hb, ha, alookup_ainsert_self]
  · intro v
    simp [handleStatusUpdate, hb, ha, alookup_ainsert_self]

/-- Witness for the amended C4 theorem: a concrete dreaming agent keeps its
currentDreamId across dream_end while its status returns to active. -/
theorem c4_currentDreamId_lifecycle_witness :
    (Session.mk "s" (some "a")).agentId = some "a" ∧
    alookup "a" c4WState.agents = some c4WAgent ∧
    (∀ motifs wakes,
      (alookup "a" ((handleDreamEnd (mkEnv "g") ⟨"s", some "a"⟩ motifs wakes
          c4WState).1).agents).map Agent.currentDreamId = some c4WAgent.currentDreamId ∧
      (alookup "a" ((handleDreamEnd (mkEnv "g") ⟨"s", some "a"⟩ motifs wakes
          c4WState).1).agents).map Agent.status = some "active") :=
  ⟨rfl, by decide,
   (c4_currentDreamId_lifecycle (mkEnv "g") 1 ⟨"s", some "a"⟩ "a" c4WState
      c4WAgent rfl (by decide)).2.2.1⟩

/-- Claim C5 is false on the code at one point: with wakeInsights = [""]
(present and a non-empty array) the stored lastInsight is left at its old
value because the empty string is falsy in the JS fallback chain, where the
claim demands lastInsight := wakeInsights[0] = "". -/
theorem c5_counterexample :
    (alookup "a" ((handleDreamEnd (mkEnv "e1") ⟨"s", some "a"⟩ none (some [""])
        c5State).1).agents).map Agent.lastInsight = some (some "old") ∧
    ¬ ((alookup "a" ((handleDreamEnd (mkEnv "e1") ⟨"s", some "a"⟩ none (some [""])
        c5State).1).agents).map Agent.lastInsight = some (some "")) := by decide

/-- Claim C5 amended: dream_end sets state to active, increments dreamCount
by exactly one, stamps lastDream, replaces motifs only when supplied, and
sets lastInsight to wakeInsights[0] only when wakeInsights is supplied,
non-empty and its first element is a non-empty string (a supplied first
element "" is falsy and leaves lastInsight unchanged); every
register → dream_start → dream_end sequence takes dreamCount from 0 to
exactly 1 and returns the state to active. -/
theorem c5_dream_end_effects :
    (∀ (e : Env) (session : Session) (aid : String) (st : Nursery)
       (agent : Agent) (motifs wakes : Option (List String)),
       session.agentId = some aid → alookup aid st.agents = some agent →
       ∃ agent',
         alookup aid ((handleDreamEnd e session motifs wakes st).1).agents
           = some agent' ∧
         agent'.status = "active" ∧
         agent'.dreamCount = agent.dreamCount + 1 ∧
         agent'.lastDream = some e.now ∧
         (motifs = none → agent'.motifs = agent.motifs) ∧
         (∀ ms, motifs = some ms → agent'.motifs = ms) ∧
         (wakes = none → agent'.lastInsight = agent.lastInsight) ∧
         (wakes = some [] → agent'.lastInsight = agent.lastInsight) ∧
         (∀ s l, wakes = some (s :: l) → s ≠ "" → agent'.lastInsight = some s) ∧
         (∀ s l, wakes = some (s :: l) → s = "" →
            agent'.lastInsight = agent.lastInsight)) ∧
    (∀ (e1 e2 e3 : Env) (ws : Nat) (st : Nursery) (s : Session)
       (name icon agentId dreamId : Option String)
       (motifs wakes : Option (List String)),
       alookup ws st.sessions = some s →
       (alookup (strOr agentId e1.freshId)
          ((step e1 (.msg ws (.register name icon agentId)) st).1).agents).map
            Agent.dreamCount = some 0 ∧
       (alookup (strOr agentId e1.freshId)
          (runTrace [(e1, .msg ws (.register name icon agentId)),
                     (e2, .msg ws (.dreamStart dreamId)),
                     (e3, .msg ws (.dreamEnd motifs wakes))] st).agents).map
            Agent.dreamCount = some 1 ∧
       (alookup (strOr agentId e1.freshId)
          (runTrace [(e1, .msg ws (.register name icon agentId)),
                     (e2, .msg ws (.dreamStart dreamId)),
                     (e3, .msg ws (.dreamEnd motifs wakes))] st).agents).map
            Agent.status = some "active") := by
  constructor
  · intro e session aid st agent motifs wakes hb ha
    refine ⟨{ agent with
        status := "active", lastDream := some e.now,
        dreamCount := agent.dreamCount + 1,
        motifs := match motifs with | none => agent.motifs | some m => m,
        lastInsight := insightOr wakes agent.lastInsight },
      ?_, rfl, rfl, rfl, ?_, ?_, ?_, ?_, ?_, ?_⟩
    · simp [handleDreamEnd, hb, ha, alookup_ainsert_self]
    · intro h; subst h; rfl
    · intro ms h; subst h; rfl
    · intro h; subst h; rfl
    · intro h; subst h; rfl
    · intro s l h hs; subst h; simp [insightOr, hs]
    · intro s l h hs; subst h; simp [insightOr, hs]
  · intro e1 e2 e3 ws st s name icon agentId dreamId motifs wakes hlk
    refine ⟨?_, ?_, ?_⟩ <;>
      simp [runTrace, step, hlk, handleMessage, handleRegister,
        handleDreamStart, handleDreamEnd, alookup_ainsert_self]

/-- Witness for the amended C5 theorem, instantiating the per-call part at a
concrete dreaming agent with stored motifs and insight. -/
theorem c5_dream_end_effects_witness :
    (Session.mk "s" (some "a")).agentId = some "a" ∧
    alookup "a" c5State.agents = some c5Agent ∧
    (∃ agent',
       alookup "a" ((handleDreamEnd (mkEnv "e1") ⟨"s", some "a"⟩ (some ["m2"])
           (some ["fresh"]) c5State).1).agents = some agent' ∧
       agent'.status = "active" ∧
       agent'.dreamCount = c5Agent.dreamCount + 1 ∧
       agent'.lastDream = some (mkEnv "e1").now ∧
       ((some ["m2"] : Option (List String)) = none → agent'.motifs = c5Agent.motifs) ∧
       (∀ ms, (some ["m2"] : Option (List String)) = some ms → agent'.motifs = ms) ∧
       ((some ["fresh"] : Option (List String)) = none →
          agent'.lastInsight = c5Agent.lastInsight) ∧
       ((some ["fresh"] : Option (List String)) = some [] →
          agent'.lastInsight = c5Agent.lastInsight) ∧
       (∀ s l, (some ["fresh"] : Option (List String)) = some (s :: l) → s ≠ "" →
          agent'.lastInsight = some s) ∧
       (∀ s l, (some ["fresh"] : Option (List String)) = some (s :: l) → s = "" →
          agent'.lastInsight = c5Agent.lastInsight)) :=
  ⟨rfl, by decide,
   c5_dream_end_effects.1 (mkEnv "e1") ⟨"s", some "a"⟩ "a" c5State c5Agent
     (some ["m2"]) (some ["fresh"]) rfl (by decide)⟩

/-- Claim C6 is false on the code: the unrecognized status value "banana"
is stored verbatim — handleStatusUpdate performs no validation at all. -/
theorem c6_counterexample :
    (alookup "a" ((handleStatusUpdate ⟨"s", some "a"⟩ (some "banana")
        c6State).1).agents).map Agent.status = some "banana" ∧
    ("banana" : String) ≠ "active" ∧ ("banana" : String) ≠ "dreaming" := by decide

/-- Claim C6 amended: status(value) stores any supplied non-empty string as
the agent's state, recognized or not; only an absent or empty value leaves
the state unchanged. -/
theorem c6_status_unvalidated (session : Session) (aid : String) (st : Nursery)
    (agent : Agent) (v : Option String)
    (hb : session.agentId = some aid) (ha : alookup aid st.agents = some agent) :
    ∃ agent',
      alookup aid ((handleStatusUpdate session v st).1).agents = some agent' ∧
      (∀ s, v = some s → s ≠ "" → agent'.status = s) ∧
      (v = none → agent'.status = agent.status) ∧
      (v = some "" → agent'.status = agent.status) := by
  refine ⟨{ agent with status := strOr v agent.status }, ?_, ?_, ?_, ?_⟩
  · simp [handleStatusUpdate, hb, ha, alookup_ainsert_self]
  · intro s h hs; subst h; simp [strOr, hs]
  · intro h; subst h; rfl
  · intro h; subst h; simp [strOr]

/-- Witness for the amended C6 theorem at the "banana" update. -/
theorem c6_status_unvalidated_witness :
    (Session.mk "s" (some "a")).agentId = some "a" ∧
    alookup "a" c6State.agents = some c6Agent ∧
    (∃ agent',
       alookup "a" ((handleStatusUpdate ⟨"s", some "a"⟩ (some "banana")
          c6State).1).agents = some agent' ∧
       (∀ s, (some "banana" : Option String) = some s → s ≠ "" →
          agent'.status = s) ∧
       ((some "banana" : Option String) = none → agent'.status = c6Agent.status) ∧
       ((some "banana" : Option String) = some "" →
          agent'.status = c6Agent.status)) :=
  ⟨rfl, by decide,
   c6_status_unvalidated ⟨"s", some "a"⟩ "a" c6State c6Agent (some "banana")
     rfl (by decide)⟩

/-- Claim C10 confirmed: the dream_ended broadcast carries exactly the
inbound message's motifs and wakeInsights (absent stays absent), while the
stored record keeps its previous motifs and lastInsight when the message
omitted them. -/
theorem c10_dream_ended_echo (e : Env) (session : Session) (aid : String)
    (st : Nursery) (agent : Agent)
    (motifs wakes : Option (List String))
    (hb : session.agentId = some aid) (ha : alookup aid st.agents = some agent) :
    (handleDreamEnd e session motifs wakes st).2
      = [Out.broadcastOut (.dreamEnded agent.id agent.name motifs wakes) none] ∧
    ∃ agent',
      alookup aid ((handleDreamEnd e session motifs wakes st).1).agents
        = some agent' ∧
      (motifs = none → agent'.motifs = agent.motifs) ∧
      (wakes = none → agent'.lastInsight = agent.lastInsight) := by
  refine ⟨by simp [handleDreamEnd, hb, ha], ?_⟩
  refine ⟨{ agent with
      status := "active", lastDream := some e.now,
      dreamCount := agent.dreamCount + 1,
      motifs := match motifs with | none => agent.motifs | some m => m,
      lastInsight := insightOr wakes agent.lastInsight }, ?_, ?_, ?_⟩
  · simp [handleDreamEnd, hb, ha, alookup_ainsert_self]
  · intro h; subst h; rfl
  · intro h; subst h; rfl

/-- Witness for C10: an omitted motifs/wakeInsights pair is echoed as
absent in the broadcast while the record keeps its stored values. -/
theorem c10_dream_ended_echo_witness :
    (Session.mk "s" (some "a")).agentId = some "a" ∧
    alookup "a" c10State.agents = some c10Agent ∧
    ((handleDreamEnd (mkEnv "e1") ⟨"s", some "a"⟩ none none c10State).2
       = [Out.broadcastOut (.dreamEnded c10Agent.id c10Agent.name none none) none] ∧
     ∃ agent',
       alookup "a" ((handleDreamEnd (mkEnv "e1") ⟨"s", some "a"⟩ none none
          c10State).1).agents = some agent' ∧
       ((none : Option (List String)) = none → agent'.motifs = c10Agent.motifs) ∧
       ((none : Option (List String)) = none →
          agent'.lastInsight = c10Agent.lastInsight)) :=
  ⟨rfl, by decide,
   c10_dream_ended_echo (mkEnv "e1") ⟨"s", some "a"⟩ "a" c10State c10Agent
     none none rfl (by decide)⟩

/-- Claim C9 is false of the api-worker fan-out it also names: in
DreamRoom.broadcast a session whose send throws is deleted from the
registry by the catch block — here session 1 fails, is removed, and
delivery still reaches session 2. -/
theorem c9_counterexample :
    (DreamRoom.broadcast (fun w => w != 1) c9Sessions).2 = [(2, ⟨"sb", none⟩)] ∧
    (1, Session.mk "sa" none) ∈ c9Sessions ∧
    (1, Session.mk "sa" none) ∉ (DreamRoom.broadcast (fun w => w != 1) c9Sessions).2 ∧
    (DreamRoom.broadcast (fun w => w != 1) c9Sessions).1 = [2] := by decide

/-- Claim C9 amended: the Nursery broadcast attempts every session except
the excluded one, swallows individual failures without aborting the loop or
surfacing an error, and never removes a session from the registry; the
DreamRoom broadcast likewise continues past failures but deletes each
failing session from its registry during fan-out. -/
theorem c9_broadcast_fanout :
    (∀ (sendOk : Nat → Bool) (exclude : Option Nat)
       (sessions : List (Nat × Session)),
       (broadcast sendOk exclude sessions).2 = sessions ∧
       (broadcast sendOk exclude sessions).1 =
         (sessions.filter fun p =>
            decide (some p.1 ≠ exclude) && sendOk p.1).map Prod.fst) ∧
    (∀ (sendOk : Nat → Bool) (sessions : List (Nat × Session)),
       (DreamRoom.broadcast sendOk sessions).2 =
         sessions.filter (fun p => sendOk p.1) ∧
       (DreamRoom.broadcast sendOk sessions).1 =
         (sessions.filter (fun p => sendOk p.1)).map Prod.fst) := by
  constructor
  · intro sendOk exclude sessions
    induction sessions with
    | nil => exact ⟨rfl, rfl⟩
    | cons p rest ih =>
      obtain ⟨ih1, ih2⟩ := ih
      by_cases hx : some p.1 ≠ exclude
      · by_cases hs : sendOk p.1 = true <;>
          simp [broadcast, hx, hs, List.filter_cons, ih1, ih2]
      · simp [broadcast, hx, List.filter_cons, ih1, ih2]
  · intro sendOk sessions
    induction sessions with
    | nil => exact ⟨rfl, rfl⟩
    | cons p rest ih =>
      obtain ⟨ih1, ih2⟩ := ih
      by_cases hs : sendOk p.1 = true <;>
        simp [DreamRoom.broadcast, hs, List.filter_cons, ih1, ih2]

/-- A find? over a list whose prefix all fails the predicate returns the
first succeeding element. -/
theorem find?_first {α : Type} {f : α → Bool} {l1 l2 : List α} {p : α}
    (h1 : ∀ q ∈ l1, f q = false) (h2 : f p = true) :
    (l1 ++ p :: l2).find? f = some p := by
  induction l1 with
  | nil =>
    simp only [List.nil_append]
    exact List.find?_cons_of_pos _ h2
  | cons a rest ih =>
    have ha : f a = false := h1 a (List.mem_cons_self _ _)
    simp only [List.cons_append]
    rw [List.find?_cons_of_neg _ (by simp [ha])]
    exact ih fun q hq => h1 q (List.mem_cons_of_mem _ hq)

/-- Claim C7 confirmed: registration assigns the first preset (in the fixed
order) whose exact pair no current agent occupies; the random fallback is
used only when every preset is occupied, and then lands inside the layout
bounds; and a registration right after another one never repeats the
previous position while an open preset remains, because the new agent's
pair is occupied for the second lookup. -/
theorem c7_position_policy :
    (∀ (agents : List (String × Agent)) (r1 r2 : ℚ) (l1 l2 : List (ℚ × ℚ))
       (p : ℚ × ℚ),
       positions = l1 ++ p :: l2 →
       (∀ q ∈ l1, occupied agents q = true) →
       occupied agents p = false →
       assignPos agents r1 r2 = p) ∧
    (∀ (agents : List (String × Agent)) (r1 r2 : ℚ),
       (∀ q ∈ positions, occupied agents q = true) →
       0 ≤ r1 → r1 < 1 → 0 ≤ r2 → r2 < 1 →
       assignPos agents r1 r2 = (100 + r1 * 500, 100 + r2 * 400) ∧
       100 ≤ (assignPos agents r1 r2).1 ∧ (assignPos agents r1 r2).1 < 600 ∧
       100 ≤ (assignPos agents r1 r2).2 ∧ (assignPos agents r1 r2).2 < 500) ∧
    (∀ (e : Env) (ws : Nat) (session : Session)
       (name icon agentId : Option String) (st : Nursery) (r1 r2 : ℚ),
       (∃ q ∈ positions,
          occupied ((handleRegister e ws session name icon agentId st).1).agents q
            = false) →
       assignPos ((handleRegister e ws session name icon agentId st).1).agents r1 r2
         ≠ assignPos st.agents e.rnd1 e.rnd2) := by
  refine ⟨?_, ?_, ?_⟩
  · intro agents r1 r2 l1 l2 p hpos h1 h2
    have hf : (l1 ++ p :: l2).find? (fun q => ! occupied agents q) = some p :=
      find?_first (fun q hq => by simp [h1 q hq]) (by simp [h2])
    simp [assignPos, hpos, hf]
  · intro agents r1 r2 hall h01 h11 h02 h12
    have hf : positions.find? (fun q => ! occupied agents q) = none := by
      rw [List.find?_eq_none]
      intro x hx
      simp [hall x hx]
    have he : assignPos agents r1 r2 = (100 + r1 * 500, 100 + r2 * 400) := by
      simp [assignPos, hf]
    have b1 : (0 : ℚ) ≤ r1 * 500 := mul_nonneg h01 (by norm_num)
    have b2 : r1 * 500 < 1 * 500 := by
      exact mul_lt_mul_of_pos_right h11 (by norm_num)
    have b3 : (0 : ℚ) ≤ r2 * 400 := mul_nonneg h02 (by norm_num)
    have b4 : r2 * 400 < 1 * 400 := by
      exact mul_lt_mul_of_pos_right h12 (by norm_num)
    refine ⟨he, ?_, ?_, ?_, ?_⟩ <;> rw [he] <;> dsimp only <;> linarith
  · intro e ws session name icon agentId st r1 r2 hopen
    obtain ⟨q, hq, hqocc⟩ := hopen
    have hocc1 : occupied
        ((handleRegister e ws session name icon agentId st).1).agents
        (assignPos st.agents e.rnd1 e.rnd2) = true := by
      rw [occupied, List.any_eq_true]
      refine ⟨(strOr agentId e.freshId,
        { id := strOr agentId e.freshId, name := strOr name "Unknown",
          icon := strOr icon "🥚", status := "active",
          x := (assignPos st.agents e.rnd1 e.rnd2).1,
          y := (assignPos st.agents e.rnd1 e.rnd2).2, connectedAt := e.now,
          lastDream := none, dreamCount := 0, motifs := [], lastInsight := none,
          currentDreamId := none }), ?_, by simp⟩
      exact self_mem_ainsert _ _ st.agents
    have hne : positions.find?
        (fun p => ! occupied ((handleRegister e ws session name icon agentId
            st).1).agents p) ≠ none := by
      rw [Ne, List.find?_eq_none]
      intro hnone
      have := hnone q hq
      simp [hqocc] at this
    obtain ⟨pf, hpf⟩ := Option.ne_none_iff_exists'.mp hne
    have hpred := List.find?_some hpf
    have hpfocc : occupied
        ((handleRegister e ws session name icon agentId st).1).agents pf
          = false := by simpa using hpred
    have hpfne : pf ≠ assignPos st.agents e.rnd1 e.rnd2 := by
      intro hcontra
      rw [hcontra, hocc1] at hpfocc
      cases hpfocc
    simpa [assignPos, hpf] using hpfne

/-- Witness for the C7 theorem: an empty room gets the first preset; a room
with every preset occupied gets the random in-bounds fallback; and a second
registration right after a first never repeats its position while a preset
is open. -/
theorem c7_position_policy_witness :
    (occupied ([] : List (String × Agent)) (100, 150) = false ∧
     assignPos [] 0 0 = (100, 150)) ∧
    ((∀ q ∈ positions, occupied c7AllAgents q = true) ∧
     assignPos c7AllAgents (1/2) (1/2) = (100 + (1/2) * 500, 100 + (1/2) * 400)) ∧
    ((∃ q ∈ positions,
        occupied ((handleRegister (mkEnv "u1") 1 ⟨"s", none⟩ none none
          (some "a") nursery0).1).agents q = false) ∧
     assignPos ((handleRegister (mkEnv "u1") 1 ⟨"s", none⟩ none none
          (some "a") nursery0).1).agents 0 0
       ≠ assignPos nursery0.agents (mkEnv "u1").rnd1 (mkEnv "u1").rnd2) :=
  ⟨⟨by decide,
    c7_position_policy.1 [] 0 0 []
      [(350, 150), (600, 150), (100, 350), (350, 350), (600, 350),
       (225, 250), (475, 250)] (100, 150) rfl (by decide) (by decide)⟩,
   ⟨by decide,
    (c7_position_policy.2.1 c7AllAgents (1/2) (1/2) (by decide)
      (by norm_num) (by norm_num) (by norm_num) (by norm_num)).1⟩,
   ⟨by decide,
    c7_position_policy.2.2 (mkEnv "u1") 1 ⟨"s", none⟩ none none (some "a")
      nursery0 0 0 (by decide)⟩⟩

/-- A message other than register from an unbound session leaves the whole
state unchanged and can only answer with a direct pong. -/
theorem step_unbound_msg (e : Env) (ws : Nat) (m : Msg) (st : Nursery)
    (s : Session) (hlk : alookup ws st.sessions = some s)
    (hub : s.agentId = none) (hnr : m.isRegister = false) :
    (step e (.msg ws m) st).1 = st ∧
    ∀ o ∈ (step e (.msg ws m) st).2, ∃ t, o = Out.direct ws (.pong t) := by
  cases m with
  | register name icon agentId => simp [Msg.isRegister] at hnr
  | status v =>
    exact ⟨by simp [step, hlk, handleMessage, handleStatusUpdate, hub],
           by simp [step, hlk, handleMessage, handleStatusUpdate, hub]⟩
  | dreamStart d =>
    exact ⟨by simp [step, hlk, handleMessage, handleDreamStart, hub],
           by simp [step, hlk, handleMessage, handleDreamStart, hub]⟩
  | dreamEnd mo wa =>
    exact ⟨by simp [step, hlk, handleMessage, handleDreamEnd, hub],
           by simp [step, hlk, handleMessage, handleDreamEnd, hub]⟩
  | insight i b =>
    exact ⟨by simp [step, hlk, handleMessage, handleInsight, hub],
           by simp [step, hlk, handleMessage, handleInsight, hub]⟩
  | ping =>
    refine ⟨by simp [step, hlk, handleMessage], ?_⟩
    intro o ho
    simp only [step, hlk, handleMessage, List.mem_singleton] at ho
    exact ⟨e.now, ho⟩
  | unknown =>
    exact ⟨by simp [step, hlk, handleMessage],
           by simp [step, hlk, handleMessage]⟩

/-- Claim C8 confirmed: a session that never registers elicits no state
change at all (in particular no agent mutation) and no broadcast — every
output its traffic can produce is a direct pong to itself. -/
theorem c8_unregistered_silent (msgs : List (Env × Msg)) (ws : Nat)
    (st : Nursery) (s : Session)
    (hlk : alookup ws st.sessions = some s) (hub : s.agentId = none)
    (hnr : ∀ p ∈ msgs, p.2.isRegister = false) :
    (runMsgs msgs ws st).1 = st ∧
    ∀ o ∈ (runMsgs msgs ws st).2, ∃ t, o = Out.direct ws (.pong t) := by
  induction msgs with
  | nil => exact ⟨rfl, by simp [runMsgs]⟩
  | cons p rest ih =>
    obtain ⟨e, m⟩ := p
    have h1 := step_unbound_msg e ws m st s hlk hub
      (hnr (e, m) (List.mem_cons_self _ _))
    have ih' := ih fun q hq => hnr q (List.mem_cons_of_mem _ hq)
    constructor
    · show (runMsgs ((e, m) :: rest) ws st).1 = st
      simp only [runMsgs]
      rw [h1.1]
      exact ih'.1
    · intro o ho
      simp only [runMsgs] at ho
      rw [h1.1] at ho
      rcases List.mem_append.mp ho with h | h
      · exact h1.2 o h
      · exact ih'.2 o h

/-- Witness for C8: a concrete unbound session sending pings, status,
dream and insight traffic changes nothing and gets only pongs. -/
theorem c8_unregistered_silent_witness :
    alookup 1 c8State.sessions = some ⟨"s", none⟩ ∧
    (Session.mk "s" none).agentId = none ∧
    (∀ p ∈ c8Msgs, p.2.isRegister = false) ∧
    ((runMsgs c8Msgs 1 c8State).1 = c8State ∧
     ∀ o ∈ (runMsgs c8Msgs 1 c8State).2, ∃ t, o = Out.direct 1 (.pong t)) :=
  ⟨by decide, rfl, by decide,
   c8_unregistered_silent c8Msgs 1 c8State ⟨"s", none⟩ (by decide) rfl
     (by decide)⟩

/-- Every operation keeps both registries' keys distinct. -/
theorem step_nodup (e : Env) (op : Op) (st : Nursery) (h : NodupState st) :
    NodupState (step e op st).1 := by
  obtain ⟨hs, ha⟩ := h
  cases op with
  | accept ws =>
    exact ⟨nodupKeys_ainsert hs _ _, ha⟩
  | msg ws m =>
    cases hlk : alookup ws st.sessions with
    | none => simp only [step, hlk]; exact ⟨hs, ha⟩
    | some s =>
      cases m with
      | register name icon agentId =>
        simp only [step, hlk, handleMessage, handleRegister]
        exact ⟨nodupKeys_ainsert hs _ _, nodupKeys_ainsert ha _ _⟩
      | status v =>
        simp only [step, hlk, handleMessage, handleStatusUpdate]
        split
        · exact ⟨hs, ha⟩
        · split
          · exact ⟨hs, ha⟩
          · exact ⟨hs, nodupKeys_ainsert ha _ _⟩
      | dreamStart d =>
        simp only [step, hlk, handleMessage, handleDreamStart]
        split
        · exact ⟨hs, ha⟩
        · split
          · exact ⟨hs, ha⟩
          · exact ⟨hs, nodupKeys_ainsert ha _ _⟩
      | dreamEnd mo wa =>
        simp only [step, hlk, handleMessage, handleDreamEnd]
        split
        · exact ⟨hs, ha⟩
        · split
          · exact ⟨hs, ha⟩
          · exact ⟨hs, nodupKeys_ainsert ha _ _⟩
      | insight i b =>
        simp only [step, hlk, handleMessage, handleInsight]
        split
        · exact ⟨hs, ha⟩
        · split
          · exact ⟨hs, ha⟩
          · exact ⟨hs, ha⟩
      | ping => simp only [step, hlk, handleMessage]; exact ⟨hs, ha⟩
      | unknown => simp only [step, hlk, handleMessage]; exact ⟨hs, ha⟩
  | disconnect ws =>
    cases hlk : alookup ws st.sessions with
    | none => simp only [step, hlk]; exact ⟨hs, ha⟩
    | some s =>
      simp only [step, hlk, handleDisconnect]
      split
      · exact ⟨nodupKeys_aerase hs _, ha⟩
      · split
        · exact ⟨nodupKeys_aerase hs _, ha⟩
        · exact ⟨nodupKeys_aerase hs _, nodupKeys_aerase ha _⟩

/-- Point update of an agent that some live session is bound to preserves
orphan-freeness. -/
theorem orphanFree_agents_ainsert {st : Nursery} (hof : OrphanFree st)
    {k : String} {v : Agent} (hw : ∃ q ∈ st.sessions, q.2.agentId = some k) :
    OrphanFree ⟨st.sessions, ainsert k v st.agents⟩ := by
  intro p hp
  rcases mem_ainsert_elim hp with rfl | hp'
  · exact hw
  · exact hof p hp'

/-- One transport-well-formed, non-rebinding operation preserves
orphan-freeness of the directory. -/
theorem step_orphanFree (e : Env) (op : Op) (st : Nursery)
    (hnd : NodupState st) (hof : OrphanFree st)
    (hwf : wfStepB st op = true) (hnr : noRebindB st e op = true) :
    OrphanFree (step e op st).1 := by
  cases op with
  | accept ws =>
    have hnone : alookup ws st.sessions = none := by
      simpa [wfStepB, Option.isNone_iff_eq_none] using hwf
    intro p hp
    obtain ⟨q, hq, hqa⟩ := hof p hp
    exact ⟨q, mem_ainsert_of_ne hq ws _ (key_ne_of_alookup_none hnone hq), hqa⟩
  | msg ws m =>
    cases hlk : alookup ws st.sessions with
    | none => simpa [step, hlk] using hof
    | some s =>
      have hqs : (ws, s) ∈ st.sessions := mem_of_alookup hlk
      cases m with
      | register name icon agentId =>
        have hnr' : s.agentId = none ∨
            s.agentId = some (strOr agentId e.freshId) := by
          simp only [noRebindB, hlk, Bool.or_eq_true, beq_iff_eq] at hnr
          exact hnr
        intro p hp
        simp only [step, hlk, handleMessage, handleRegister] at hp ⊢
        rcases mem_ainsert_elim hp with rfl | hp'
        · exact ⟨(ws, { s with agentId := some (strOr agentId e.freshId) }),
            self_mem_ainsert _ _ _, rfl⟩
        · obtain ⟨q, hq, hqa⟩ := hof p hp'
          by_cases hqw : q.1 = ws
          · have hqeq : q = (ws, s) := eq_of_mem_keys hnd.1 hq hqs hqw
            have hsp : s.agentId = some p.1 := by rw [hqeq] at hqa; exact hqa
            rcases hnr' with hnone | hsome
            · rw [hnone] at hsp; exact Option.noConfusion hsp
            · have hpid : p.1 = strOr agentId e.freshId := by
                rw [hsome] at hsp
                exact (Option.some_injective _ hsp).symm
              exact ⟨(ws, { s with agentId := some (strOr agentId e.freshId) }),
                self_mem_ainsert _ _ _, by rw [hpid]⟩
          · exact ⟨q, mem_ainsert_of_ne hq ws _ hqw, hqa⟩
      | status v =>
        cases hb : s.agentId with
        | none => simpa [step, hlk, handleMessage, handleStatusUpdate, hb] using hof
        | some aid =>
          cases ha : alookup aid st.agents with
          | none =>
            simpa [step, hlk, handleMessage, handleStatusUpdate, hb, ha] using hof
          | some agent =>
            simp only [step, hlk, handleMessage, handleStatusUpdate, hb, ha]
            exact orphanFree_agents_ainsert hof ⟨(ws, s), hqs, hb⟩
      | dreamStart d =>
        cases hb : s.agentId with
        | none => simpa [step, hlk, handleMessage, handleDreamStart, hb] using hof
        | some aid =>
          cases ha : alookup aid st.agents with
          | none =>
            simpa [step, hlk, handleMessage, handleDreamStart, hb, ha] using hof
          | some agent =>
            simp only [step, hlk, handleMessage, handleDreamStart, hb, ha]
            exact orphanFree_agents_ainsert hof ⟨(ws, s), hqs, hb⟩
      | dreamEnd mo wa =>
        cases hb : s.agentId with
        | none => simpa [step, hlk, handleMessage, handleDreamEnd, hb] using hof
        | some aid =>
          cases ha : alookup aid st.agents with
          | none =>
            simpa [step, hlk, handleMessage, handleDreamEnd, hb, ha] using hof
          | some agent =>
            simp only [step, hlk, handleMessage, handleDreamEnd, hb, ha]
            exact orphanFree_agents_ainsert hof ⟨(ws, s), hqs, hb⟩
      | insight i b =>
        cases hb : s.agentId with
        | none => simpa [step, hlk, handleMessage, handleInsight, hb] using hof
        | some aid =>
          cases ha : alookup aid st.agents with
          | none =>
            simpa [step, hlk, handleMessage, handleInsight, hb, ha] using hof
          | some agent =>
            simpa [step, hlk, handleMessage, handleInsight, hb, ha] using hof
      | ping => simpa [step, hlk, handleMessage] using hof
      | unknown => simpa [step, hlk, handleMessage] using hof
  | disconnect ws =>
    cases hlk : alookup ws st.sessions with
    | none => simpa [step, hlk] using hof
    | some s =>
      have hqs : (ws, s) ∈ st.sessions := mem_of_alookup hlk
      cases hb : s.agentId with
      | none =>
        simp only [step, hlk, handleDisconnect, hb]
        intro p hp
        obtain ⟨q, hq, hqa⟩ := hof p hp
        have hqw : q.1 ≠ ws := by
          intro hqw
          have hqeq : q = (ws, s) := eq_of_mem_keys hnd.1 hq hqs hqw
          have hsp : s.agentId = some p.1 := by rw [hqeq] at hqa; exact hqa
          rw [hb] at hsp
          exact Option.noConfusion hsp
        exact ⟨q, mem_aerase_of_ne hq ws hqw, hqa⟩
      | some aid =>
        cases ha : alookup aid st.agents with
        | none =>
          simp only [step, hlk, handleDisconnect, hb, ha]
          intro p hp
          obtain ⟨q, hq, hqa⟩ := hof p hp
          have hqw : q.1 ≠ ws := by
            intro hqw
            have hqeq : q = (ws, s) := eq_of_mem_keys hnd.1 hq hqs hqw
            have hsp : s.agentId = some p.1 := by rw [hqeq] at hqa; exact hqa
            rw [hb] at hsp
            have hpid : p.1 = aid := (Option.some_injective _ hsp).symm
            exact key_ne_of_alookup_none ha hp hpid
          exact ⟨q, mem_aerase_of_ne hq ws hqw, hqa⟩
        | some agent =>
          simp only [step, hlk, handleDisconnect, hb, ha]
          intro p hp
          have hpmem : p ∈ st.agents := mem_of_mem_aerase hp
          have hpne : p.1 ≠ aid := key_ne_of_mem_aerase hnd.2 hp
          obtain ⟨q, hq, hqa⟩ := hof p hpmem
          have hqw : q.1 ≠ ws := by
            intro hqw
            have hqeq : q = (ws, s) := eq_of_mem_keys hnd.1 hq hqs hqw
            have hsp : s.agentId = some p.1 := by rw [hqeq] at hqa; exact hqa
            rw [hb] at hsp
            exact hpne (Option.some_injective _ hsp).symm
          exact ⟨q, mem_aerase_of_ne hq ws hqw, hqa⟩

/-- Key distinctness is an invariant of every trace. -/
theorem runTrace_nodup (tr : List (Env × Op)) (st : Nursery)
    (h : NodupState st) : NodupState (runTrace tr st) := by
  induction tr generalizing st with
  | nil => exact h
  | cons p rest ih =>
    obtain ⟨e, op⟩ := p
    exact ih (step e op st).1 (step_nodup e op st h)

/-- Orphan-freeness is an invariant of safe traces. -/
theorem runTrace_orphanFree (tr : List (Env × Op)) (st : Nursery)
    (hnd : NodupState st) (hof : OrphanFree st)
    (hsafe : SafeTraceC2 st tr = true) : OrphanFree (runTrace tr st) := by
  induction tr generalizing st with
  | nil => exact hof
  | cons p rest ih =>
    obtain ⟨e, op⟩ := p
    simp only [SafeTraceC2, Bool.and_eq_true] at hsafe
    obtain ⟨⟨hwf, hnr⟩, hrest⟩ := hsafe
    exact ih (step e op st).1 (step_nodup e op st hnd)
      (step_orphanFree e op st hnd hof hwf hnr) hrest

/-- Claim C2 is false on the code as stated: a bound session re-registering
under a new id leaves the old agent record "a" in the directory with no
session bound to it (the directory retains an agent whose binding session
was rebound). -/
theorem c2_counterexample : ¬ OrphanFree (runTrace c2CexTrace nursery0) := by
  decide

/-- Claim C2 amended: at most one agent record per id always holds (the
directory is a map keyed by id); and for every trace whose accepts use
fresh connection handles and in which no bound session re-registers under a
different effective id, every agent record in the directory has a live
session bound to it. Without that restriction a re-register orphans the
previous record (see the counterexample). -/
theorem c2_directory_invariant (tr : List (Env × Op)) :
    NodupKeys (runTrace tr nursery0).agents ∧
    (SafeTraceC2 nursery0 tr = true → OrphanFree (runTrace tr nursery0)) := by
  have h0 : NodupState nursery0 := by
    constructor <;> simp [NodupKeys, nursery0]
  refine ⟨(runTrace_nodup tr nursery0 h0).2, ?_⟩
  intro hsafe
  refine runTrace_orphanFree tr nursery0 h0 ?_ hsafe
  intro p hp
  exact absurd hp (List.not_mem_nil p)

/-- Witness for the amended C2 theorem on a concrete safe trace with two
sessions, registrations, a dream cycle and a disconnect. -/
theorem c2_directory_invariant_witness :
    SafeTraceC2 nursery0 c2WTrace = true ∧
    OrphanFree (runTrace c2WTrace nursery0) :=
  ⟨by decide, (c2_directory_invariant c2WTrace).2 (by decide)⟩

/-- Point update of an agent record preserves the no-dangling property. -/
theorem noDangling_agents_ainsert {st : Nursery} (h : NoDangling st)
    (k : String) (v : Agent) :
    NoDangling ⟨st.sessions, ainsert k v st.agents⟩ := by
  intro q hq aid hqa
  obtain ⟨p, hp, hpk⟩ := h q hq aid hqa
  by_cases hpkk : p.1 = k
  · exact ⟨(k, v), self_mem_ainsert _ _ _, by rw [← hpkk]; exact hpk⟩
  · exact ⟨p, mem_ainsert_of_ne hp k v hpkk, hpk⟩

/-- One operation whose register (if any) targets an id not bound to a
different live session preserves no-dangling and unique-binding. -/
theorem step_c3 (e : Env) (op : Op) (st : Nursery)
    (hnd : NodupState st) (h1 : NoDangling st) (h2 : UniqueBound st)
    (hdr : distinctRegB st e op = true) :
    NoDangling (step e op st).1 ∧ UniqueBound (step e op st).1 := by
  cases op with
  | accept ws =>
    constructor
    · intro q hq aid hqa
      rcases mem_ainsert_elim hq with rfl | hq'
      · exact Option.noConfusion hqa
      · exact h1 q hq' aid hqa
    · intro q hq r hr aid hqa hra
      rcases mem_ainsert_elim hq with rfl | hq'
      · exact Option.noConfusion hqa
      · rcases mem_ainsert_elim hr with rfl | hr'
        · exact Option.noConfusion hra
        · exact h2 q hq' r hr' aid hqa hra
  | msg ws m =>
    cases hlk : alookup ws st.sessions with
    | none =>
      exact ⟨by simpa [step, hlk] using h1, by simpa [step, hlk] using h2⟩
    | some s =>
      have hqs : (ws, s) ∈ st.sessions := mem_of_alookup hlk
      cases m with
      | register name icon agentId =>
        have hdr' : ∀ q ∈ st.sessions, q.1 ≠ ws →
            q.2.agentId ≠ some (strOr agentId e.freshId) := by
          intro q hq hqw
          simp only [distinctRegB, List.all_eq_true] at hdr
          have h := hdr q hq
          simp at h
          rcases h with h | h
          · exact absurd h hqw
          · exact h
        simp only [step, hlk, handleMessage, handleRegister]
        constructor
        · intro q hq aid hqa
          rcases mem_ainsert_elim hq with rfl | hq'
          · have hid : strOr agentId e.freshId = aid :=
              Option.some_injective _ hqa
            exact ⟨(strOr agentId e.freshId, _), self_mem_ainsert _ _ _, hid⟩
          · obtain ⟨p, hp, hpk⟩ := h1 q hq' aid hqa
            by_cases hpkk : p.1 = strOr agentId e.freshId
            · exact ⟨(strOr agentId e.freshId, _), self_mem_ainsert _ _ _,
                by rw [← hpkk]; exact hpk⟩
            · exact ⟨p, mem_ainsert_of_ne hp _ _ hpkk, hpk⟩
        · intro q hq r hr aid hqa hra
          rcases mem_ainsert_elim hq with rfl | hq'
          · rcases mem_ainsert_elim hr with rfl | hr'
            · rfl
            · by_cases hrw : r.1 = ws
              · exact hrw.symm
              · have hid : aid = strOr agentId e.freshId :=
                  (Option.some_injective _ hqa).symm
                exact absurd (hid ▸ hra) (hdr' r hr' hrw)
          · rcases mem_ainsert_elim hr with rfl | hr'
            · by_cases hqw : q.1 = ws
              · exact hqw
              · have hid : aid = strOr agentId e.freshId :=
                  (Option.some_injective _ hra).symm
                exact absurd (hid ▸ hqa) (hdr' q hq' hqw)
            · exact h2 q hq' r hr' aid hqa hra
      | status v =>
        cases hb : s.agentId with
        | none =>
          exact ⟨by simpa [step, hlk, handleMessage, handleStatusUpdate, hb] using h1,
                 by simpa [step, hlk, handleMessage, handleStatusUpdate, hb] using h2⟩
        | some aid0 =>
          cases ha : alookup aid0 st.agents with
          | none =>
            exact ⟨by simpa [step, hlk, handleMessage, handleStatusUpdate, hb, ha] using h1,
                   by simpa [step, hlk, handleMessage, handleStatusUpdate, hb, ha] using h2⟩
          | some agent =>
            simp only [step, hlk, handleMessage, handleStatusUpdate, hb, ha]
            exact ⟨noDangling_agents_ainsert h1 _ _, h2⟩
      | dreamStart d =>
        cases hb : s.agentId with
        | none =>
          exact ⟨by simpa [step, hlk, handleMessage, handleDreamStart, hb] using h1,
                 by simpa [step, hlk, handleMessage, handleDreamStart, hb] using h2⟩
        | some aid0 =>
          cases ha : alookup aid0 st.agents with
          | none =>
            exact ⟨by simpa [step, hlk, handleMessage, handleDreamStart, hb, ha] using h1,
                   by simpa [step, hlk, handleMessage, handleDreamStart, hb, ha] using h2⟩
          | some agent =>
            simp only [step, hlk, handleMessage, handleDreamStart, hb, ha]
            exact ⟨noDangling_agents_ainsert h1 _ _, h2⟩
      | dreamEnd mo wa =>
        cases hb : s.agentId with
        | none =>
          exact ⟨by simpa [step, hlk, handleMessage, handleDreamEnd, hb] using h1,
                 by simpa [step, hlk, handleMessage, handleDreamEnd, hb] using h2⟩
        | some aid0 =>
          cases ha : alookup aid0 st.agents with
          | none =>
            exact ⟨by simpa [step, hlk, handleMessage, handleDreamEnd, hb, ha] using h1,
                   by simpa [step, hlk, handleMessage, handleDreamEnd, hb, ha] using h2⟩
          | some agent =>
            simp only [step, hlk, handleMessage, handleDreamEnd, hb, ha]
            exact ⟨noDangling_agents_ainsert h1 _ _, h2⟩
      | insight i b =>
        cases hb : s.agentId with
        | none =>
          exact ⟨by simpa [step, hlk, handleMessage, handleInsight, hb] using h1,
                 by simpa [step, hlk, handleMessage, handleInsight, hb] using h2⟩
        | some aid0 =>
          cases ha : alookup aid0 st.agents with
          | none =>
            exact ⟨by simpa [step, hlk, handleMessage, handleInsight, hb, ha] using h1,
                   by simpa [step, hlk, handleMessage, handleInsight, hb, ha] using h2⟩
          | some agent =>
            exact ⟨by simpa [step, hlk, handleMessage, handleInsight, hb, ha] using h1,
                   by simpa [step, hlk, handleMessage, handleInsight, hb, ha] using h2⟩
      | ping =>
        exact ⟨by simpa [step, hlk, handleMessage] using h1,
               by simpa [step, hlk, handleMessage] using h2⟩
      | unknown =>
        exact ⟨by simpa [step, hlk, handleMessage] using h1,
               by simpa [step, hlk, handleMessage] using h2⟩
  | disconnect ws =>
    cases hlk : alookup ws st.sessions with
    | none =>
      exact ⟨by simpa [step, hlk] using h1, by simpa [step, hlk] using h2⟩
    | some s =>
      have hqs : (ws, s) ∈ st.sessions := mem_of_alookup hlk
      cases hb : s.agentId with
      | none =>
        simp only [step, hlk, handleDisconnect, hb]
        constructor
        · intro q hq aid hqa
          exact h1 q (mem_of_mem_aerase hq) aid hqa
        · intro q hq r hr aid hqa hra
          exact h2 q (mem_of_mem_aerase hq) r (mem_of_mem_aerase hr) aid hqa hra
      | some aid0 =>
        cases ha : alookup aid0 st.agents with
        | none =>
          simp only [step, hlk, handleDisconnect, hb, ha]
          constructor
          · intro q hq aid hqa
            exact h1 q (mem_of_mem_aerase hq) aid hqa
          · intro q hq r hr aid hqa hra
            exact h2 q (mem_of_mem_aerase hq) r (mem_of_mem_aerase hr) aid hqa hra
        | some agent =>
          simp only [step, hlk, handleDisconnect, hb, ha]
          constructor
          · intro q hq aid hqa
            have hqmem : q ∈ st.sessions := mem_of_mem_aerase hq
            obtain ⟨p, hp, hpk⟩ := h1 q hqmem aid hqa
            by_cases hpa : p.1 = aid0
            · have haid : aid = aid0 := by rw [← hpk]; exact hpa
              have hq_ws : q.1 = ws :=
                h2 q hqmem (ws, s) hqs aid0 (haid ▸ hqa) hb
              exact absurd hq_ws (key_ne_of_mem_aerase hnd.1 hq)
            · exact ⟨p, mem_aerase_of_ne hp _ hpa, hpk⟩
          · intro q hq r hr aid hqa hra
            exact h2 q (mem_of_mem_aerase hq) r (mem_of_mem_aerase hr) aid hqa hra

/-- No-dangling plus unique-binding is an invariant of traces safe in the
C3 sense. -/
theorem runTrace_c3 (tr : List (Env × Op)) (st : Nursery)
    (hnd : NodupState st) (h1 : NoDangling st) (h2 : UniqueBound st)
    (hsafe : SafeTraceC3 st tr = true) : NoDangling (runTrace tr st) := by
  induction tr generalizing st with
  | nil => exact h1
  | cons p rest ih =>
    obtain ⟨e, op⟩ := p
    simp only [SafeTraceC3, Bool.and_eq_true] at hsafe
    obtain ⟨hdr, hrest⟩ := hsafe
    have hstep := step_c3 e op st hnd h1 h2 hdr
    exact ih (step e op st).1 (step_nodup e op st hnd) hstep.1 hstep.2 hrest

/-- Claim C3 is false as stated: two sessions registering the same supplied
agentId followed by the first one disconnecting leaves session 2 bound to
"a" while the record "a" has been deleted — a dangling reference. -/
theorem c3_counterexample : ¬ NoDangling (runTrace c3CexTrace nursery0) := by
  intro h
  have hm : ((2 : Nat), Session.mk "s2" (some "a"))
      ∈ (runTrace c3CexTrace nursery0).sessions := by decide
  obtain ⟨p, hp, _⟩ := h _ hm "a" rfl
  have he : (runTrace c3CexTrace nursery0).agents = [] := by decide
  rw [he] at hp
  exact absurd hp (List.not_mem_nil p)

/-- Claim C3 amended: every bound session refers to an existing agent
record, for all interleavings of operations in which no register binds an
agent id that is already bound to a different live session; two sessions
registering the same supplied agentId violate it (see the counterexample). -/
theorem c3_no_dangling (tr : List (Env × Op))
    (hsafe : SafeTraceC3 nursery0 tr = true) :
    NoDangling (runTrace tr nursery0) := by
  have h0 : NodupState nursery0 := by
    constructor <;> simp [NodupKeys, nursery0]
  refine runTrace_c3 tr nursery0 h0 ?_ ?_ hsafe
  · intro q hq
    exact absurd hq (List.not_mem_nil q)
  · intro q hq
    exact absurd hq (List.not_mem_nil q)

/-- Witness for the amended C3 theorem on a concrete safe trace with two
distinct registrations, a dream start and a disconnect. -/
theorem c3_no_dangling_witness :
    SafeTraceC3 nursery0 c3WTrace = true ∧
    NoDangling (runTrace c3WTrace nursery0) :=
  ⟨by decide, c3_no_dangling c3WTrace (by decide)⟩
